import Mathlib

/-!
A formal model of repo-merger's classification-and-reconciliation pipeline.

The definitions below are shallow embeddings of the Python modules in
`src/repo_merger/` (`auto.py`, `fragments.py`, `inspection.py`, `merge.py`,
`recovery.py`, `cli.py`).  Pure computations (scoring, id generation,
diffing, env handling) are translated directly; interaction with the real
filesystem and with the `git` subprocess is abstracted into explicit oracle
structures (`FS`, `InspectEnv`, `MergeEnv`) whose fields answer exactly the
queries the Python code makes (`Path.exists`, `Path.is_dir`,
`git status --short`, ...).  Fallible code is modelled with `Except`,
mirroring `RepoMergerError` propagation.
-/

namespace RepoMerger

/-- Boolean signals observed by `auto._classify_repo` for one candidate
directory.  `matchesGolden` / `matchesFragment` are the
`fnmatch(name, pattern)` results; `gitDirIsDir` is `(path / ".git").is_dir()`;
`gitHasRemote` is `has_remote_from_config(read_git_config(git_dir/"config"))`;
`isBare` is `is_bare_repo(path)`; `bareHasRemote` is
`has_remote_from_config(read_git_config(path/"config"))`. -/
structure RepoSignals where
  matchesGolden : Bool
  matchesFragment : Bool
  gitDirIsDir : Bool
  gitHasRemote : Bool
  isBare : Bool
  bareHasRemote : Bool
  deriving DecidableEq

/-- The golden score accumulated by `auto._classify_repo`
(`score_golden`): +2 for a golden-pattern name match, +2 (+1 with a
remote) for a `.git` directory, else +3 (+1 with a remote) for a bare
repository layout. -/
def goldenScore (s : RepoSignals) : ℕ :=
  (if s.matchesGolden then 2 else 0)
    + (if s.gitDirIsDir then 2 + (if s.gitHasRemote then 1 else 0)
       else if s.isBare then 3 + (if s.bareHasRemote then 1 else 0)
       else 0)

/-- The fragment score accumulated by `auto._classify_repo`
(`score_fragment`): +1 for a fragment-pattern name match, +1 for git
metadata without a remote, +1 when there is neither a `.git` directory nor
a bare layout. -/
def fragmentScore (s : RepoSignals) : ℕ :=
  (if s.matchesFragment then 1 else 0)
    + (if s.gitDirIsDir then (if s.gitHasRemote then 0 else 1)
       else if s.isBare then 0
       else 1)

/-- The `reasons` list accumulated by `auto._classify_repo`, in the order
the Python code appends them. -/
def classifyReasons (s : RepoSignals) : List String :=
  (if s.matchesGolden then ["name-matches-golden-pattern"] else [])
    ++ (if s.matchesFragment then ["name-matches-fragment-pattern"] else [])
    ++ (if s.gitDirIsDir then
          (if s.gitHasRemote then ["git-remote-found"] else ["git-metadata-no-remote"])
        else if s.isBare then
          (if s.bareHasRemote then ["bare-repo-with-remote"] else ["bare-repo"])
        else ["missing-git-directory"])

/-- `auto._classify_repo`: returns `(classification, confidence, reason)`.
Classification is `"golden"` when `score_golden - score_fragment >= 1`,
else `"fragment"` when `score_fragment - score_golden >= 0`, else
`"unknown"`; confidence is `min(1.0, abs(score_golden - score_fragment) / 4.0)`
(modelled in `ℚ`; all values involved are exactly representable floats);
reason is the comma-joined reasons list, `"no-heuristics"` when empty. -/
def classifyRepo (s : RepoSignals) : String × ℚ × String :=
  let g := goldenScore s
  let f := fragmentScore s
  let classification :=
    if (g : ℤ) - (f : ℤ) ≥ 1 then "golden"
    else if (f : ℤ) - (g : ℤ) ≥ 0 then "fragment"
    else "unknown"
  let confidence : ℚ := min 1 (|(g : ℚ) - (f : ℚ)| / 4)
  let reasons := classifyReasons s
  let reason := if reasons.isEmpty then "no-heuristics" else String.intercalate "," reasons
  (classification, confidence, reason)

/-- `auto._looks_like_repo`: the name matches either glob pattern, or the
directory has a `.git` directory, or it is a bare repository layout. -/
def looksLikeRepo (s : RepoSignals) : Bool :=
  s.matchesGolden || s.matchesFragment || s.gitDirIsDir || s.isBare

/-- The per-directory keep condition of `auto.scan_for_repos`: the two
`continue` statements drop a directory unless it looks like a repo and its
classification is not `"unknown"`. -/
def scanKeep (s : RepoSignals) : Bool :=
  looksLikeRepo s && !((classifyRepo s).1 == "unknown")

/-- The candidates kept by the `scan_for_repos` walk, as a filter over the
signal vectors of the visited directories. -/
def scanKept (l : List RepoSignals) : List RepoSignals :=
  l.filter scanKeep

/-- C1: for every scanned candidate directory with golden-score `g` and
fragment-score `f` computed from the weighted signals, `_classify_repo`
classifies it as golden when `g - f ≥ 1`, as fragment when `f - g ≥ 0`,
otherwise unknown, with confidence `min 1 (|g - f| / 4)`; a directory whose
name matches the golden pattern and which has version-control metadata
declaring a remote classifies as golden with `g ≥ f + 1`, and a plain
directory matching the fragment pattern with no version-control metadata
classifies as fragment. -/
theorem classify_repo_spec (s : RepoSignals) :
    (classifyRepo s).1 =
      (if (goldenScore s : ℤ) - (fragmentScore s : ℤ) ≥ 1 then "golden"
       else if (fragmentScore s : ℤ) - (goldenScore s : ℤ) ≥ 0 then "fragment"
       else "unknown")
    ∧ (classifyRepo s).2.1 = min 1 (|(goldenScore s : ℚ) - (fragmentScore s : ℚ)| / 4)
    ∧ (s.matchesGolden = true →
        ((s.gitDirIsDir = true ∧ s.gitHasRemote = true) ∨
          (s.gitDirIsDir = false ∧ s.isBare = true ∧ s.bareHasRemote = true)) →
        (classifyRepo s).1 = "golden" ∧ fragmentScore s + 1 ≤ goldenScore s)
    ∧ (s.matchesFragment = true → s.gitDirIsDir = false → s.isBare = false →
        (classifyRepo s).1 = "fragment") := by
  obtain ⟨a, b, c, d, e, f⟩ := s
  refine ⟨rfl, rfl, ?_, ?_⟩ <;>
    cases a <;> cases b <;> cases c <;> cases d <;> cases e <;> cases f <;> decide

theorem classify_repo_spec_witness :
    ((classifyRepo ⟨true, false, true, true, false, false⟩).1 = "golden"
      ∧ fragmentScore ⟨true, false, true, true, false, false⟩ + 1 ≤
          goldenScore ⟨true, false, true, true, false, false⟩)
    ∧ (classifyRepo ⟨false, true, false, false, false, false⟩).1 = "fragment" :=
  ⟨(classify_repo_spec ⟨true, false, true, true, false, false⟩).2.2.1 rfl
      (Or.inl ⟨rfl, rfl⟩),
   (classify_repo_spec ⟨false, true, false, false, false, false⟩).2.2.2 rfl rfl rfl⟩

/-- C10: the classifier's unknown branch is unreachable — `_classify_repo`
always returns golden or fragment (for any non-negative scores `g`, `f`,
either `g - f ≥ 1` or `f - g ≥ 0`), so the scanner's drop-on-unknown check
never fires: the kept candidates are exactly those passing the
looks-like-a-repo test. -/
theorem classify_unknown_unreachable :
    (∀ s : RepoSignals, (classifyRepo s).1 = "golden" ∨ (classifyRepo s).1 = "fragment")
    ∧ (∀ g f : ℕ, (g : ℤ) - (f : ℤ) ≥ 1 ∨ (f : ℤ) - (g : ℤ) ≥ 0)
    ∧ (∀ l : List RepoSignals, scanKept l = l.filter looksLikeRepo) := by
  have h1 : ∀ s : RepoSignals,
      (classifyRepo s).1 = "golden" ∨ (classifyRepo s).1 = "fragment" := by
    intro s
    simp only [classifyRepo]
    split_ifs with h₁ h₂
    · exact Or.inl rfl
    · exact Or.inr rfl
    · omega
  refine ⟨h1, fun g f => by omega, ?_⟩
  intro l
  unfold scanKept
  refine List.filter_congr ?_
  intro x _
  unfold scanKeep
  rcases h1 x with h | h <;> rw [h] <;> simp

/-- Kernel of Python `Path.name` on a normalized absolute path: the part of
the character list after the last `'/'` (empty for the filesystem root). -/
def pathNameAux : List Char → List Char → List Char
  | [], acc => acc
  | c :: cs, acc => if c = '/' then pathNameAux cs [] else pathNameAux cs (acc ++ [c])

/-- Python `Path.name` for the resolved absolute paths the ingestor works
with: the final path component, `""` for the root `"/"`. -/
def pathName (p : String) : String :=
  String.mk (pathNameAux p.toList [])

/-- `fragments._sanitize`: keep alphanumerics, `-` and `_`, replace every
other character with `-` (Python `str.isalnum` modelled on ASCII). -/
def sanitize (value : String) : String :=
  String.mk (value.toList.map fun ch =>
    if ch.isAlphanum || ch == '-' || ch == '_' then ch else '-')

/-- Python's `f"{index:03d}"` for a non-negative index: the decimal digits,
left-padded with zeros to a minimum width of 3. -/
def pythonPad3 (n : ℕ) : String :=
  let s := toString n
  if s.length < 3 then String.mk (List.replicate (3 - s.length) '0') ++ s else s

/-- `fragments._generate_fragment_id`.  The SHA-1 hex digest of the source
path is abstracted as the oracle `sha1hex` (the claims only depend on the
digest being a function of the path).  `slug = fragment.name or "fragment"`
is the Python truthiness fallback for an empty basename. -/
def generateFragmentId (sha1hex : String → String) (fragment : String) (index : ℕ) : String :=
  let slug0 := pathName fragment
  let slug := sanitize (if slug0 = "" then "fragment" else slug0)
  let digest := (sha1hex fragment).take 8
  pythonPad3 index ++ "-" ++ slug ++ "-" ++ digest

/-- The fragment-id format exactly as the claim words it: zero-padded
3-digit position, hyphen, sanitized basename, hyphen, first 8 hex
characters of the SHA-1 of the absolute source path. -/
def claimFragmentId (sha1hex : String → String) (fragment : String) (index : ℕ) : String :=
  pythonPad3 index ++ "-" ++ sanitize (pathName fragment) ++ "-" ++ (sha1hex fragment).take 8

/-- The claim amended by the `"fragment"` fallback the code applies when
the basename of the source path is empty. -/
def claimFragmentIdAmended (sha1hex : String → String) (fragment : String) (index : ℕ) : String :=
  pythonPad3 index ++ "-"
    ++ sanitize (if pathName fragment = "" then "fragment" else pathName fragment)
    ++ "-" ++ (sha1hex fragment).take 8

/-- C9 counterexample: at the root path `"/"` (empty basename) the
generated id uses the fallback slug `"fragment"`, not the sanitized
basename required by the claim. -/
theorem fragment_id_root_cex :
    generateFragmentId (fun _ => "0123456789abcdef0123456789abcdef01234567") "/" 1
        = "001-fragment-01234567"
    ∧ claimFragmentId (fun _ => "0123456789abcdef0123456789abcdef01234567") "/" 1
        = "001--01234567"
    ∧ (decide (generateFragmentId (fun _ => "0123456789abcdef0123456789abcdef01234567") "/" 1
        = claimFragmentId (fun _ => "0123456789abcdef0123456789abcdef01234567") "/" 1)
          = false) :=
  ⟨rfl, rfl, rfl⟩

/-- C9 (amended): the generated fragment id is the zero-padded 3-digit
position, a hyphen, the sanitized basename of the source path — or the
literal `"fragment"` when that basename is empty — a hyphen, and the first
8 hex characters of the SHA-1 of the path; in particular the id is a pure
function of the path and position (stable across runs), and for every path
with a non-empty basename the original claim formula holds. -/
theorem fragment_id_spec (sha1hex : String → String) (fragment : String) (index : ℕ) :
    generateFragmentId sha1hex fragment index = claimFragmentIdAmended sha1hex fragment index
    ∧ (pathName fragment ≠ "" →
        generateFragmentId sha1hex fragment index = claimFragmentId sha1hex fragment index) := by
  constructor
  · rfl
  · intro h
    simp only [generateFragmentId, claimFragmentId]
    rw [if_neg h]

theorem fragment_id_spec_witness :
    pathName "/data/frag-a" ≠ ""
    ∧ generateFragmentId (fun _ => "0123456789abcdef0123456789abcdef01234567")
          "/data/frag-a" 1
        = claimFragmentId (fun _ => "0123456789abcdef0123456789abcdef01234567")
            "/data/frag-a" 1 :=
  ⟨by decide,
   (fragment_id_spec (fun _ => "0123456789abcdef0123456789abcdef01234567")
      "/data/frag-a" 1).2 (by decide)⟩

/-- `fragments.FragmentRecord` (a dataclass; `timestamp` is the ingestion
wall-clock time, passed in here as the `now` argument of `ingestSingle`). -/
structure FragmentRecord where
  fragment_id : String
  source : String
  destination : String
  source_type : String
  timestamp : String
  has_git : Bool
  recovered_repo : Option String := none
  deriving DecidableEq

/-- Filesystem oracle: answers the `Path.exists`, `Path.is_dir` and
`Path.is_file` queries the Python code makes. -/
structure FS where
  pathExists : String → Bool
  pathIsDir : String → Bool
  pathIsFile : String → Bool

/-- `pathlib`'s `/` operator on the (absolute, normalized) paths used here. -/
def joinPath (a b : String) : String := a ++ "/" ++ b

/-- `fragments._classify_fragment`: `"git"` for a directory containing a
`.git` entry, `"directory"` for a plain directory, `"file"` for a regular
file, `"other"` otherwise. -/
def classifyFragment (fs : FS) (fragment : String) : String :=
  if fs.pathIsDir fragment then
    (if fs.pathExists (joinPath fragment ".git") then "git" else "directory")
  else if fs.pathIsFile fragment then "file"
  else "other"

/-- `fragments._ingest_single`.  Returns the produced `FragmentRecord`
together with the list of copy effects performed, or the
`RepoMergerError` message raised.  `workspaceFragments` is
`workspace.fragments`; `now` the current UTC timestamp. -/
def ingestSingle (fs : FS) (sha1hex : String → String) (workspaceFragments : String)
    (now : String) (fragment : String) (index : ℕ) (dryRun : Bool) :
    Except String (FragmentRecord × List String) :=
  if fs.pathExists fragment = false then
    .error ("Fragment path does not exist: " ++ fragment)
  else
    let fragment_id := generateFragmentId sha1hex fragment index
    let destination := joinPath workspaceFragments fragment_id
    let source_type := classifyFragment fs fragment
    let record : FragmentRecord :=
      { fragment_id := fragment_id, source := fragment, destination := destination,
        source_type := source_type, timestamp := now, has_git := source_type == "git",
        recovered_repo := none }
    if dryRun then
      .ok (record, [])
    else if fs.pathExists destination then
      .error ("Fragment destination already exists (collision?): " ++ destination)
    else if fs.pathIsDir fragment then
      .ok (record, ["copytree " ++ fragment ++ " -> " ++ destination])
    else
      .ok (record, ["copy2 " ++ fragment ++ " -> " ++ destination])

/-- A filesystem in which the fragment source `/data/frag-a` exists (a
plain directory) and its ingestion destination in the workspace already
exists as well — exactly the state left behind by a previous ingestion of
the same source. -/
def fsCollision : FS :=
  { pathExists := fun p =>
      p == "/data/frag-a" || p == "/ws/demo/fragments/001-frag-a-01234567",
    pathIsDir := fun p => p == "/data/frag-a",
    pathIsFile := fun _ => false }

/-- C2: evaluation at the failing input.  When the destination for a
fragment already exists, non-dry-run `_ingest_single` does not skip and
produce a not-copied record as the spec (and the repository's own test
`test_ingest_fragment_existing_destination_is_reused`) requires: it raises
`RepoMergerError`, which aborts the whole batch. -/
theorem ingest_existing_destination_raises :
    ingestSingle fsCollision (fun _ => "0123456789abcdef0123456789abcdef01234567")
        "/ws/demo/fragments" "2024-01-01T00:00:00+00:00" "/data/frag-a" 1 false
      = .error
          "Fragment destination already exists (collision?): /ws/demo/fragments/001-frag-a-01234567" :=
  rfl

/-- `auto.ScanCandidate`: one candidate directory found by the scanner,
with its classification, confidence, reason string, and directory content
digest. -/
structure ScanCandidate where
  path : String
  classification : String
  confidence : ℚ
  reason : String
  digest : String

/-- One entry of `auto.ScanManifest` (the ledger).  Entries are JSON
objects; `record_fragment` always writes a digest, but an entry loaded
from disk may lack the key, hence `digest : Option String` (Python
`entry.get("digest")`). -/
structure LedgerEntry where
  source : String
  entryType : String
  identifier : String
  fragment_id : String
  digest : Option String
  destination : String
  updated_at : String

/-- The ledger's in-memory state: `ScanManifest.entries`, a dict keyed by
source path, modelled as an association list whose most recent binding for
a key is the first one. -/
abbrev Ledger := List (String × LedgerEntry)

/-- `ScanManifest.lookup`: `entries.get(str(source))`. -/
def ledgerLookup (entries : Ledger) (source : String) : Option LedgerEntry :=
  entries.lookup source

/-- `ScanManifest.record_fragment`: overwrite/insert the entry for
`source` (dict assignment; this model prepends, and `ledgerLookup` takes
the most recent binding). -/
def recordFragment (entries : Ledger)
    (source digest fragment_id destination identifier now : String) : Ledger :=
  (source,
    { source := source, entryType := "fragment", identifier := identifier,
      fragment_id := fragment_id, digest := some digest, destination := destination,
      updated_at := now }) :: entries

/-- The ledger-driven decision of `cli._build_scan_context` for a fragment
candidate: action `"existing"` when a ledger entry for the candidate's
path exists and its stored digest equals the candidate's fresh digest,
otherwise `"ingest"` (the candidate is queued as a pending fragment). -/
def scanAction (entries : Ledger) (c : ScanCandidate) : String :=
  match ledgerLookup entries c.path with
  | some entry => if entry.digest = some c.digest then "existing" else "ingest"
  | none => "ingest"

/-- C8: a scanned candidate is treated as already ingested (action
`"existing"` instead of being queued) iff a ledger entry exists for its
source path and that entry's stored digest equals the candidate's freshly
computed digest; and after ingestion results are recorded into the ledger
with the candidate's digest, re-scanning the unchanged candidate (same
path, same recomputed digest) yields `"existing"`. -/
theorem ledger_skip_spec (entries : Ledger) (c : ScanCandidate) :
    (scanAction entries c = "existing" ↔
      ∃ e : LedgerEntry, ledgerLookup entries c.path = some e ∧ e.digest = some c.digest)
    ∧ ∀ fid dest idf now : String,
        scanAction (recordFragment entries c.path c.digest fid dest idf now) c
          = "existing" := by
  constructor
  · unfold scanAction
    cases h : ledgerLookup entries c.path with
    | none => simp
    | some e =>
      by_cases hd : e.digest = some c.digest
      · simp [hd]
      · simp [hd]
  · intro fid dest idf now
    unfold scanAction recordFragment ledgerLookup
    simp [List.lookup]

/-- A concrete fragment candidate, as produced by scanning a plain
directory that matches the fragment name pattern. -/
def sampleCandidate : ScanCandidate :=
  { path := "/data/frag-a", classification := "fragment", confidence := 1/4,
    reason := "name-matches-fragment-pattern,missing-git-directory", digest := "d1" }

theorem ledger_skip_spec_witness :
    scanAction
        (recordFragment [] sampleCandidate.path sampleCandidate.digest
          "001-frag-a-01234567" "/ws/demo/fragments/001-frag-a-01234567" "demo"
          "2024-01-01T00:00:00+00:00")
        sampleCandidate
      = "existing" :=
  (ledger_skip_spec [] sampleCandidate).2 "001-frag-a-01234567"
    "/ws/demo/fragments/001-frag-a-01234567" "demo" "2024-01-01T00:00:00+00:00"

/-- `inspection.FileManifestEntry`: one file's fingerprint. -/
structure FileManifestEntry where
  path : String
  size : ℕ
  sha256 : String
  deriving DecidableEq

/-- Code-point lexicographic comparison of character lists (how Python
compares `str` values when sorting). -/
def charListLe : List Char → List Char → Bool
  | [], _ => true
  | _ :: _, [] => false
  | a :: as, b :: bs =>
    if a.toNat < b.toNat then true
    else if b.toNat < a.toNat then false
    else charListLe as bs

/-- Python string `<=` by code point. -/
def strLe (a b : String) : Bool :=
  charListLe a.toList b.toList

/-- Python `sorted` on a list of strings. -/
def sortStr (l : List String) : List String :=
  @List.insertionSort String (fun a b => strLe a b = true)
    (fun a b => instDecidableEqBool (strLe a b) true) l

theorem mem_sortStr {x : String} {l : List String} : x ∈ sortStr l ↔ x ∈ l :=
  (List.perm_insertionSort _ l).mem_iff

/-- The dict comprehension `{entry.path: entry.sha256 for entry in entries}`
of `inspection._diff_paths`, as an association list (later entries win, so
lookups read the reversed list: see `mapLookup`). -/
def manifestMap (entries : List FileManifestEntry) : List (String × String) :=
  entries.map fun e => (e.path, e.sha256)

/-- Dict lookup for `manifestMap` (a later binding for the same path
overwrites an earlier one, as in Python). -/
def mapLookup (m : List (String × String)) (p : String) : Option String :=
  m.reverse.lookup p

/-- The dict's key set, `set(m)`, as a deduplicated list. -/
def mapKeys (m : List (String × String)) : List String :=
  (m.map Prod.fst).dedup

/-- `added = sorted(set(fragment_map) - set(golden_map))`. -/
def diffAdded (gm fm : List (String × String)) : List String :=
  sortStr ((mapKeys fm).filter fun p => !(mapKeys gm).contains p)

/-- `removed = sorted(set(golden_map) - set(fragment_map))`. -/
def diffRemoved (gm fm : List (String × String)) : List String :=
  sortStr ((mapKeys gm).filter fun p => !(mapKeys fm).contains p)

/-- `modified = sorted(path for path in golden ∩ fragment if hashes differ)`. -/
def diffModified (gm fm : List (String × String)) : List String :=
  sortStr ((mapKeys gm).filter fun p =>
    (mapKeys fm).contains p && (mapLookup gm p != mapLookup fm p))

/-- The human-readable summary built by `_diff_paths`: for each non-empty
category its count and up to 3 example paths, joined with `"; "`. -/
def diffSummary (added removed modified : List String) : String :=
  String.intercalate "; "
    ((if added.isEmpty then [] else
        ["added:" ++ toString added.length ++ " ("
          ++ String.intercalate ", " (added.take 3) ++ ")"])
      ++ (if removed.isEmpty then [] else
        ["removed:" ++ toString removed.length ++ " ("
          ++ String.intercalate ", " (removed.take 3) ++ ")"])
      ++ (if modified.isEmpty then [] else
        ["modified:" ++ toString modified.length ++ " ("
          ++ String.intercalate ", " (modified.take 3) ++ ")"]))

/-- `inspection._diff_paths` on the two already-built content manifests:
returns `(diff_summary, diff_status)` where the status is `"clean"` iff
all three categories are empty, else `"dirty"` with the summary. -/
def diffPaths (goldenEntries fragmentEntries : List FileManifestEntry) :
    Option String × String :=
  let golden_map := manifestMap goldenEntries
  let fragment_map := manifestMap fragmentEntries
  let added := diffAdded golden_map fragment_map
  let removed := diffRemoved golden_map fragment_map
  let modified := diffModified golden_map fragment_map
  if added.isEmpty && removed.isEmpty && modified.isEmpty then (none, "clean")
  else (some (diffSummary added removed modified), "dirty")

theorem lookup_isSome_iff {m : List (String × String)} {p : String} :
    (m.lookup p).isSome = true ↔ p ∈ m.map Prod.fst := by
  induction m with
  | nil => simp [List.lookup]
  | cons kv t ih =>
    obtain ⟨k, v⟩ := kv
    by_cases h : p = k
    · subst h; simp [List.lookup]
    · have hb : (p == k) = false := by simp [h]
      simp [List.lookup, hb, ih, h]

theorem mem_mapKeys {m : List (String × String)} {p : String} :
    p ∈ mapKeys m ↔ (mapLookup m p).isSome = true := by
  unfold mapKeys mapLookup
  rw [lookup_isSome_iff]
  simp

/-- C4: viewing the two content manifests as maps from relative path to
content hash, `_diff_paths` computes added = fragment-only paths,
removed = golden-only paths, modified = shared paths with differing
hashes; the diff is clean iff all three are empty (and the summary is
`none` exactly then, otherwise the per-category summary with counts and at
most 3 example paths); two identical trees yield a clean diff. -/
theorem diff_spec (ge fe : List FileManifestEntry) :
    (∀ p, p ∈ diffAdded (manifestMap ge) (manifestMap fe) ↔
      ((mapLookup (manifestMap fe) p).isSome = true
        ∧ (mapLookup (manifestMap ge) p).isSome = false))
    ∧ (∀ p, p ∈ diffRemoved (manifestMap ge) (manifestMap fe) ↔
      ((mapLookup (manifestMap ge) p).isSome = true
        ∧ (mapLookup (manifestMap fe) p).isSome = false))
    ∧ (∀ p, p ∈ diffModified (manifestMap ge) (manifestMap fe) ↔
      ((mapLookup (manifestMap ge) p).isSome = true
        ∧ (mapLookup (manifestMap fe) p).isSome = true
        ∧ mapLookup (manifestMap ge) p ≠ mapLookup (manifestMap fe) p))
    ∧ ((diffPaths ge fe).2 = "clean" ↔
      (diffAdded (manifestMap ge) (manifestMap fe) = []
        ∧ diffRemoved (manifestMap ge) (manifestMap fe) = []
        ∧ diffModified (manifestMap ge) (manifestMap fe) = []))
    ∧ ((diffPaths ge fe).1 = none ↔ (diffPaths ge fe).2 = "clean")
    ∧ ((diffPaths ge fe).2 = "dirty" →
      (diffPaths ge fe).1 = some (diffSummary
        (diffAdded (manifestMap ge) (manifestMap fe))
        (diffRemoved (manifestMap ge) (manifestMap fe))
        (diffModified (manifestMap ge) (manifestMap fe))))
    ∧ diffPaths ge ge = (none, "clean") := by
  have hkey : ∀ (m : List (String × String)) (p : String),
      (mapKeys m).contains p = (mapLookup m p).isSome := by
    intro m p
    rw [Bool.eq_iff_iff, List.elem_iff, mem_mapKeys]
  refine ⟨?_, ?_, ?_, ?_, ?_, ?_, ?_⟩
  · intro p
    unfold diffAdded
    rw [mem_sortStr, List.mem_filter, mem_mapKeys, hkey, Bool.not_eq_true']
  · intro p
    unfold diffRemoved
    rw [mem_sortStr, List.mem_filter, mem_mapKeys, hkey, Bool.not_eq_true']
  · intro p
    unfold diffModified
    rw [mem_sortStr, List.mem_filter, mem_mapKeys, Bool.and_eq_true, hkey,
      bne_iff_ne]
  · simp only [diffPaths]
    split_ifs with h
    · simp only [Bool.and_eq_true, List.isEmpty_iff] at h
      simp [h.1.1, h.1.2, h.2]
    · simp only [Bool.and_eq_true, List.isEmpty_iff] at h
      constructor
      · intro hc
        exact absurd hc (show ¬ (("dirty" : String) = "clean") by decide)
      · intro hc
        exact absurd ⟨⟨hc.1, hc.2.1⟩, hc.2.2⟩ h
  · simp only [diffPaths]
    split_ifs with h
    · simp
    · exact iff_of_false (by simp) (show ¬ (("dirty" : String) = "clean") by decide)
  · simp only [diffPaths]
    split_ifs with h
    · intro hc
      exact absurd hc (show ¬ (("clean" : String) = "dirty") by decide)
    · intro _
      rfl
  · have h1 : diffAdded (manifestMap ge) (manifestMap ge) = [] := by
      unfold diffAdded
      have hf : ((mapKeys (manifestMap ge)).filter
          fun p => !(mapKeys (manifestMap ge)).contains p) = [] := by
        apply List.filter_eq_nil_iff.mpr
        intro p hp
        have hc : (mapKeys (manifestMap ge)).contains p = true := List.elem_iff.mpr hp
        rw [hc]
        decide
      rw [hf]
      rfl
    have h2 : diffRemoved (manifestMap ge) (manifestMap ge) = [] := by
      unfold diffRemoved
      have hf : ((mapKeys (manifestMap ge)).filter
          fun p => !(mapKeys (manifestMap ge)).contains p) = [] := by
        apply List.filter_eq_nil_iff.mpr
        intro p hp
        have hc : (mapKeys (manifestMap ge)).contains p = true := List.elem_iff.mpr hp
        rw [hc]
        decide
      rw [hf]
      rfl
    have h3 : diffModified (manifestMap ge) (manifestMap ge) = [] := by
      unfold diffModified
      have hf : ((mapKeys (manifestMap ge)).filter
          fun p => (mapKeys (manifestMap ge)).contains p
            && (mapLookup (manifestMap ge) p != mapLookup (manifestMap ge) p)) = [] := by
        apply List.filter_eq_nil_iff.mpr
        intro p hp
        simp
      rw [hf]
      rfl
    simp only [diffPaths]
    rw [h1, h2, h3]
    rfl

/-- The diff of two small concrete trees sharing `mod.txt` with different
hashes. -/
theorem diff_spec_witness :
    "mod.txt" ∈ diffModified
      (manifestMap [⟨"common.txt", 1, "h1"⟩, ⟨"mod.txt", 1, "h3"⟩])
      (manifestMap [⟨"common.txt", 1, "h1"⟩, ⟨"mod.txt", 1, "h5"⟩, ⟨"new.txt", 1, "h4"⟩])
    ∧ (diffPaths [⟨"common.txt", 1, "h1"⟩, ⟨"mod.txt", 1, "h3"⟩]
        [⟨"common.txt", 1, "h1"⟩, ⟨"mod.txt", 1, "h5"⟩, ⟨"new.txt", 1, "h4"⟩]).1
      = some (diffSummary
          (diffAdded
            (manifestMap [⟨"common.txt", 1, "h1"⟩, ⟨"mod.txt", 1, "h3"⟩])
            (manifestMap [⟨"common.txt", 1, "h1"⟩, ⟨"mod.txt", 1, "h5"⟩, ⟨"new.txt", 1, "h4"⟩]))
          (diffRemoved
            (manifestMap [⟨"common.txt", 1, "h1"⟩, ⟨"mod.txt", 1, "h3"⟩])
            (manifestMap [⟨"common.txt", 1, "h1"⟩, ⟨"mod.txt", 1, "h5"⟩, ⟨"new.txt", 1, "h4"⟩]))
          (diffModified
            (manifestMap [⟨"common.txt", 1, "h1"⟩, ⟨"mod.txt", 1, "h3"⟩])
            (manifestMap [⟨"common.txt", 1, "h1"⟩, ⟨"mod.txt", 1, "h5"⟩,
              ⟨"new.txt", 1, "h4"⟩]))) :=
  ⟨((diff_spec [⟨"common.txt", 1, "h1"⟩, ⟨"mod.txt", 1, "h3"⟩]
      [⟨"common.txt", 1, "h1"⟩, ⟨"mod.txt", 1, "h5"⟩, ⟨"new.txt", 1, "h4"⟩]).2.2.1
    "mod.txt").mpr ⟨by decide, by decide, by decide⟩,
   (diff_spec [⟨"common.txt", 1, "h1"⟩, ⟨"mod.txt", 1, "h3"⟩]
      [⟨"common.txt", 1, "h1"⟩, ⟨"mod.txt", 1, "h5"⟩,
        ⟨"new.txt", 1, "h4"⟩]).2.2.2.2.2.1 (by decide)⟩

/-- `inspection.GitFragmentInfo`. -/
structure GitFragmentInfo where
  head : Option String
  branch : Option String
  is_dirty : Bool
  status : String
  deriving DecidableEq

/-- `inspection.FragmentAnalysis`: the inspection outcome for one
fragment. -/
structure FragmentAnalysis where
  fragment_id : String
  status : String
  diff_summary : Option String
  git : Option GitFragmentInfo
  manifest_path : Option String
  handlers : List String
  deriving DecidableEq

/-- Environment for the inspector: the filesystem, the content-manifest
builder `_build_manifest` (a deterministic walk of the tree rooted at the
given path), the `_gather_git_info` subprocess wrapper (which raises
`RepoMergerError` when the status query fails), and the registry's
`flag(kind, ...)` handler-id allocator. -/
structure InspectEnv where
  fs : FS
  manifestAt : String → List FileManifestEntry
  gitInfo : String → Except String GitFragmentInfo
  flagId : String → String

/-- `inspection._resolve_repo_path`: the recovered-repo path if set
(non-empty, Python truthiness) and existing, else the fragment's own
destination if the record has git metadata and `destination/.git` exists,
else none. -/
def resolveRepoPath (fs : FS) (record : FragmentRecord) : Option String :=
  let fragment_path := record.destination
  let viaRecovered : Option String :=
    match record.recovered_repo with
    | some rp => if (rp != "") && fs.pathExists rp then some rp else none
    | none => none
  match viaRecovered with
  | some rp => some rp
  | none =>
    if record.has_git && fs.pathExists (joinPath fragment_path ".git") then some fragment_path
    else none

/-- `inspection._inspect_single`.  `golden` is `workspace.golden`,
`manifestsDir` the manifests directory, `registryOn` whether a flagging
registry was passed. -/
def inspectSingle (env : InspectEnv) (golden manifestsDir : String)
    (registryOn dryRun : Bool) (record : FragmentRecord) : FragmentAnalysis :=
  let fragment_path := record.destination
  if env.fs.pathExists fragment_path = false then
    { fragment_id := record.fragment_id, status := "missing", diff_summary := none,
      git := none, manifest_path := none,
      handlers := if registryOn then [env.flagId "missing-fragment"] else [] }
  else
    let diff := diffPaths (env.manifestAt golden) (env.manifestAt fragment_path)
    match resolveRepoPath env.fs record with
    | some repo_path =>
      let gitAndHandlers : Option GitFragmentInfo × List String :=
        match env.gitInfo repo_path with
        | .ok info => (some info, [])
        | .error _ => (none, if registryOn then [env.flagId "git-inspection-error"] else [])
      { fragment_id := record.fragment_id,
        status := if diff.2 = "clean" then "in-sync" else "diverged",
        diff_summary := diff.1, git := gitAndHandlers.1, manifest_path := none,
        handlers := gitAndHandlers.2 }
    | none =>
      { fragment_id := record.fragment_id,
        status := if diff.2 = "clean" then "matched" else "non-git",
        diff_summary := diff.1, git := none,
        manifest_path :=
          if dryRun then none
          else some (joinPath manifestsDir (record.fragment_id ++ ".json")),
        handlers :=
          if record.has_git && registryOn then [env.flagId "git-metadata-missing"] else [] }

/-- C5: for every inspected fragment whose destination exists the derived
status is in-sync / diverged when a resolvable repository path exists
(according to whether the diff against golden is clean), matched / non-git
when none exists; when the destination no longer exists the status is
missing and no diff summary is produced. -/
theorem inspect_status_spec (env : InspectEnv) (golden manifestsDir : String)
    (registryOn dryRun : Bool) (record : FragmentRecord) :
    (inspectSingle env golden manifestsDir registryOn dryRun record).status =
      (if env.fs.pathExists record.destination = false then "missing"
       else if (resolveRepoPath env.fs record).isSome then
         (if (diffPaths (env.manifestAt golden) (env.manifestAt record.destination)).2 = "clean"
          then "in-sync" else "diverged")
       else
         (if (diffPaths (env.manifestAt golden) (env.manifestAt record.destination)).2 = "clean"
          then "matched" else "non-git"))
    ∧ (inspectSingle env golden manifestsDir registryOn dryRun record).diff_summary =
      (if env.fs.pathExists record.destination = false then none
       else (diffPaths (env.manifestAt golden) (env.manifestAt record.destination)).1) := by
  unfold inspectSingle
  by_cases hex : env.fs.pathExists record.destination = false
  · simp [hex]
  · cases hrp : resolveRepoPath env.fs record with
    | some repo_path => cases hgi : env.gitInfo repo_path <;> simp [hex, hrp, hgi]
    | none => simp [hex, hrp]

/-- `merge._merge_single`'s source-repository resolution (lines 63–66 of
`merge.py`): the fragment's destination when `destination/.git` exists,
else the recovered-repo path when set (non-empty — Python truthiness; its
existence and the record's `has_git` flag are *not* consulted), else
none. -/
def mergeSourceRepo (fs : FS) (record : FragmentRecord) : Option String :=
  let fragment_path := record.destination
  let source_repo : Option String :=
    if fs.pathExists (joinPath fragment_path ".git") then some fragment_path else none
  match source_repo with
  | some p => some p
  | none =>
    match record.recovered_repo with
    | some rp => if rp != "" then some rp else none
    | none => none

/-- `merge.MergeResult`. -/
structure MergeResult where
  fragment_id : String
  worktree : String
  status : String
  message : String := ""
  deriving DecidableEq

/-- Python `str.strip()`: drop whitespace from both ends. -/
def pyStrip (s : String) : String :=
  String.mk (((s.toList.dropWhile Char.isWhitespace).reverse.dropWhile
    Char.isWhitespace).reverse)

/-- Environment for the merge engine: the filesystem, the
`git worktree add` wrapper `_prepare_worktree` (raising on failure), and
the `git status --short` output of the worktree after `_overlay_fragment`
copied the given source repository over it (raising on failure). -/
structure MergeEnv where
  fs : FS
  prepareWorktree : String → Except String Unit
  gitStatusShort : String → String → Except String String

/-- `merge._merge_single`: skipped result (and no filesystem effects) when
no source repository resolves; dry-run result under `dry_run`; otherwise
worktree creation, overlay, and a status derived from the stripped
`git status --short` output.  The second component lists the performed
effects. -/
def mergeSingle (env : MergeEnv) (worktreesRoot : String) (dryRun : Bool)
    (record : FragmentRecord) : Except String (MergeResult × List String) :=
  match mergeSourceRepo env.fs record with
  | none =>
    .ok ({ fragment_id := record.fragment_id, worktree := "n/a", status := "skipped",
           message := "Fragment has no git metadata or recovered repo." }, [])
  | some source_repo =>
    let worktree_path := joinPath worktreesRoot record.fragment_id
    if dryRun then
      .ok ({ fragment_id := record.fragment_id, worktree := worktree_path,
             status := "dry-run", message := "" }, [])
    else
      match env.prepareWorktree worktree_path with
      | .error e => .error e
      | .ok _ =>
        match env.gitStatusShort source_repo worktree_path with
        | .error e => .error e
        | .ok out =>
          let stripped := pyStrip out
          .ok ({ fragment_id := record.fragment_id, worktree := worktree_path,
                 status := if stripped = "" then "clean" else "applied",
                 message := if stripped = "" then "No changes detected." else stripped },
               ["worktree-add " ++ worktree_path,
                "overlay " ++ source_repo ++ " -> " ++ worktree_path])

/-- A filesystem in which the fragment's ingested destination contains git
metadata *and* a recovered repository exists for the same fragment. -/
def fsBoth : FS :=
  { pathExists := fun p =>
      p == "/ws/demo/fragments/001/.git" || p == "/ws/demo/recovered/001",
    pathIsDir := fun p =>
      p == "/ws/demo/fragments/001" || p == "/ws/demo/recovered/001",
    pathIsFile := fun _ => false }

/-- A record whose destination has git metadata and whose
`recovered_repo` is set to an existing path. -/
def recBoth : FragmentRecord :=
  { fragment_id := "001", source := "/data/001", destination := "/ws/demo/fragments/001",
    source_type := "git", timestamp := "t", has_git := true,
    recovered_repo := some "/ws/demo/recovered/001" }

/-- C6 counterexample: the merge engine and the inspector do *not* resolve
the repository path the same way on every record — with both a recovered
repo and destination git metadata present, `_merge_single` picks the
destination while `_resolve_repo_path` picks the recovered repo. -/
theorem merge_resolution_cex :
    mergeSourceRepo fsBoth recBoth = some "/ws/demo/fragments/001"
    ∧ resolveRepoPath fsBoth recBoth = some "/ws/demo/recovered/001"
    ∧ (decide (mergeSourceRepo fsBoth recBoth = resolveRepoPath fsBoth recBoth) = false) :=
  ⟨rfl, rfl, rfl⟩

/-- The merge engine's resolution as the amended claim words it:
destination first when it has a `.git` entry, else the recovered-repo path
whenever set and non-empty (without an existence or `has_git` check), else
none. -/
def mergeResolveClaim (fs : FS) (record : FragmentRecord) : Option String :=
  if fs.pathExists (joinPath record.destination ".git") then some record.destination
  else
    match record.recovered_repo with
    | some rp => if rp != "" then some rp else none
    | none => none

/-- C6 (amended): `_merge_single` resolves the repository path as the
fragment's destination if `destination/.git` exists, else the
recovered-repo path if set and non-empty (regardless of its existence or
of `has_git`), else none — this agrees with the inspector's
`_resolve_repo_path` whenever no recovered repo is set and the record has
git metadata, but not in general; and when nothing resolves the merge
result is skipped with an explanatory message and no filesystem
effects. -/
theorem merge_resolution_spec (env : MergeEnv) (worktreesRoot : String) (dryRun : Bool)
    (record : FragmentRecord) :
    mergeSourceRepo env.fs record = mergeResolveClaim env.fs record
    ∧ (record.recovered_repo = none → record.has_git = true →
        mergeSourceRepo env.fs record = resolveRepoPath env.fs record)
    ∧ (mergeSourceRepo env.fs record = none →
        mergeSingle env worktreesRoot dryRun record =
          .ok ({ fragment_id := record.fragment_id, worktree := "n/a", status := "skipped",
                 message := "Fragment has no git metadata or recovered repo." }, [])) := by
  refine ⟨?_, ?_, ?_⟩
  · unfold mergeSourceRepo mergeResolveClaim
    by_cases h : env.fs.pathExists (joinPath record.destination ".git") = true <;> simp [h]
  · intro hrec hgit
    unfold mergeSourceRepo resolveRepoPath
    rw [hrec]
    by_cases h : env.fs.pathExists (joinPath record.destination ".git") = true <;>
      simp [h, hgit]
  · intro h
    unfold mergeSingle
    rw [h]

/-- The empty filesystem: nothing exists. -/
def fsEmpty : FS :=
  { pathExists := fun _ => false, pathIsDir := fun _ => false, pathIsFile := fun _ => false }

/-- A record flagged as having git metadata whose destination has since
lost its `.git` entry, with no recovered repo. -/
def recPlain : FragmentRecord :=
  { fragment_id := "002", source := "/data/002", destination := "/ws/demo/fragments/002",
    source_type := "git", timestamp := "t", has_git := true, recovered_repo := none }

/-- A merge environment over the empty filesystem whose git oracles always
succeed (they are never consulted on the skipped path). -/
def envEmpty : MergeEnv :=
  { fs := fsEmpty, prepareWorktree := fun _ => .ok (),
    gitStatusShort := fun _ _ => .ok "" }

theorem merge_resolution_spec_witness :
    mergeSourceRepo envEmpty.fs recPlain = resolveRepoPath envEmpty.fs recPlain
    ∧ mergeSingle envEmpty "/ws/demo/worktrees" false recPlain =
        .ok ({ fragment_id := "002", worktree := "n/a", status := "skipped",
               message := "Fragment has no git metadata or recovered repo." }, []) :=
  ⟨(merge_resolution_spec envEmpty "/ws/demo/worktrees" false recPlain).2.1 rfl rfl,
   (merge_resolution_spec envEmpty "/ws/demo/worktrees" false recPlain).2.2 rfl⟩

instance {ε α : Type} [DecidableEq ε] [DecidableEq α] : DecidableEq (Except ε α) := fun x y =>
  match x, y with
  | .error a, .error b => if h : a = b then .isTrue (by rw [h]) else .isFalse (by simp [h])
  | .ok a, .ok b => if h : a = b then .isTrue (by rw [h]) else .isFalse (by simp [h])
  | .error _, .ok _ => .isFalse (by simp)
  | .ok _, .error _ => .isFalse (by simp)

/-- The record-processing loop of `merge.merge_fragments`: the state is
the remaining records, the `resume_mode` flag and the accumulated
`results` list.  A record is skipped (recorded nowhere) while
`resume_mode` is set, its id differs from the resume marker and no result
has been emitted yet; otherwise it is processed and `resume_mode` is
cleared.  An error from `_merge_single` propagates (aborting the run). -/
def mergeLoop (env : MergeEnv) (worktreesRoot : String) (dryRun : Bool)
    (resumeFrom : Option String) :
    List FragmentRecord → Bool → List MergeResult → Except String (List MergeResult)
  | [], _, acc => .ok acc
  | record :: rest, resumeMode, acc =>
    if resumeMode
        && (match resumeFrom with
            | some s => record.fragment_id != s
            | none => true)
        && acc.isEmpty then
      mergeLoop env worktreesRoot dryRun resumeFrom rest resumeMode acc
    else
      match mergeSingle env worktreesRoot dryRun record with
      | .error e => .error e
      | .ok (res, _) =>
        mergeLoop env worktreesRoot dryRun resumeFrom rest false (acc ++ [res])

/-- `merge.merge_fragments`: `resume_mode = bool(resume_from)` (so an
empty-string marker never arms resume mode), then the loop above starting
with no results. -/
def mergeFragments (env : MergeEnv) (worktreesRoot : String)
    (records : List FragmentRecord) (dryRun : Bool) (resumeFrom : Option String) :
    Except String (List MergeResult) :=
  mergeLoop env worktreesRoot dryRun resumeFrom records
    (match resumeFrom with
     | some s => s != ""
     | none => false) []

/-- The `MergeResult` produced for one processed record (the effects
dropped). -/
def mergeSingleResult (env : MergeEnv) (worktreesRoot : String) (dryRun : Bool)
    (record : FragmentRecord) : Except String MergeResult :=
  Except.map Prod.fst (mergeSingle env worktreesRoot dryRun record)

theorem mergeLoop_no_resume (env : MergeEnv) (worktreesRoot : String) (dryRun : Bool)
    (rf : Option String) (rest : List FragmentRecord) :
    ∀ acc : List MergeResult,
      mergeLoop env worktreesRoot dryRun rf rest false acc =
        Except.map (fun l => acc ++ l)
          (rest.mapM (mergeSingleResult env worktreesRoot dryRun)) := by
  induction rest with
  | nil =>
    intro acc
    rw [List.mapM_nil]
    simp [mergeLoop, Except.map, pure, Except.pure]
  | cons r t ih =>
    intro acc
    rw [List.mapM_cons]
    cases hms : mergeSingle env worktreesRoot dryRun r with
    | error e =>
      simp [mergeLoop, hms, mergeSingleResult, Except.map, Bind.bind, Except.bind]
    | ok p =>
      obtain ⟨res, effs⟩ := p
      have hf : mergeSingleResult env worktreesRoot dryRun r = .ok res := by
        simp [mergeSingleResult, hms, Except.map]
      rw [hf]
      have hstep : mergeLoop env worktreesRoot dryRun rf (r :: t) false acc =
          mergeLoop env worktreesRoot dryRun rf t false (acc ++ [res]) := by
        simp [mergeLoop, hms]
      rw [hstep, ih]
      cases hmm : t.mapM (mergeSingleResult env worktreesRoot dryRun) with
      | error e =>
        simp [hmm, Except.map, Bind.bind, Except.bind]
      | ok bs =>
        simp [hmm, Except.map, Bind.bind, Except.bind, pure, Except.pure]

theorem mergeLoop_resume (env : MergeEnv) (worktreesRoot : String) (dryRun : Bool)
    (marker : String) :
    ∀ records : List FragmentRecord,
      marker ∈ records.map FragmentRecord.fragment_id →
      mergeLoop env worktreesRoot dryRun (some marker) records true [] =
        (records.dropWhile (fun r => r.fragment_id != marker)).mapM
          (mergeSingleResult env worktreesRoot dryRun) := by
  intro records
  induction records with
  | nil => intro h; simp at h
  | cons r t ih =>
    intro hmem
    by_cases h : r.fragment_id = marker
    · have hb : (r.fragment_id != marker) = false := by simp [h]
      rw [List.dropWhile_cons, hb]
      simp only [Bool.false_eq_true, if_false]
      rw [List.mapM_cons]
      cases hms : mergeSingle env worktreesRoot dryRun r with
      | error e =>
        simp [mergeLoop, hb, hms, mergeSingleResult, Except.map, Bind.bind, Except.bind]
      | ok p =>
        obtain ⟨res, effs⟩ := p
        have hf : mergeSingleResult env worktreesRoot dryRun r = .ok res := by
          simp [mergeSingleResult, hms, Except.map]
        rw [hf]
        have hstep : mergeLoop env worktreesRoot dryRun (some marker) (r :: t) true [] =
            mergeLoop env worktreesRoot dryRun (some marker) t false [res] := by
          simp [mergeLoop, hb, hms]
        rw [hstep, mergeLoop_no_resume]
        cases hmm : t.mapM (mergeSingleResult env worktreesRoot dryRun) with
        | error e =>
          simp [hmm, Except.map, Bind.bind, Except.bind]
        | ok bs =>
          simp [hmm, Except.map, Bind.bind, Except.bind, pure, Except.pure]
    · have hb : (r.fragment_id != marker) = true := by simp [h]
      have hmem' : marker ∈ t.map FragmentRecord.fragment_id := by
        rw [List.map_cons, List.mem_cons] at hmem
        rcases hmem with h' | h'
        · exact absurd h'.symm h
        · exact h'
      rw [List.dropWhile_cons, hb]
      simp only [if_true]
      rw [← ih hmem']
      simp [mergeLoop, hb]

/-- A record whose fragment id is `"a"` (a plain directory fragment on the
empty filesystem: its merge result is `skipped`). -/
def recA : FragmentRecord :=
  { fragment_id := "a", source := "/data/a", destination := "/ws/demo/fragments/a",
    source_type := "directory", timestamp := "t", has_git := false, recovered_repo := none }

/-- A record whose fragment id is the empty string. -/
def recEmptyId : FragmentRecord :=
  { fragment_id := "", source := "/data/b", destination := "/ws/demo/fragments/b",
    source_type := "directory", timestamp := "t", has_git := false, recovered_repo := none }

/-- C3 counterexample: for the record list `[recA, recEmptyId]` and resume
marker `""` — which occurs in the list as `recEmptyId`'s id —
`merge_fragments` emits results for *both* records (`bool("")` is falsy,
so resume mode is never armed), while the claim requires results for
exactly the suffix starting at the marker record (only `recEmptyId`). -/
theorem merge_resume_cex :
    "" ∈ [recA, recEmptyId].map FragmentRecord.fragment_id
    ∧ (mergeFragments envEmpty "/ws/demo/worktrees" [recA, recEmptyId] false
        (some "")).map (List.map MergeResult.fragment_id) = .ok ["a", ""]
    ∧ (([recA, recEmptyId].dropWhile (fun r => r.fragment_id != "")).mapM
        (mergeSingleResult envEmpty "/ws/demo/worktrees" false)).map
          (List.map MergeResult.fragment_id) = .ok [""]
    ∧ (decide (mergeFragments envEmpty "/ws/demo/worktrees" [recA, recEmptyId] false
          (some "")
        = ([recA, recEmptyId].dropWhile (fun r => r.fragment_id != "")).mapM
            (mergeSingleResult envEmpty "/ws/demo/worktrees" false)) = false) :=
  ⟨by decide, rfl, rfl, rfl⟩

/-- C3 (amended): for every record list and *non-empty* resume marker that
occurs in the list, the merge engine emits no result for the records
before the first record whose id equals the marker, processes the marker
record first, and processes every subsequent record regardless of id: its
output equals mapping `_merge_single` over the `dropWhile` suffix of the
records. -/
theorem merge_resume_spec (env : MergeEnv) (worktreesRoot : String) (dryRun : Bool)
    (records : List FragmentRecord) (marker : String)
    (hne : marker ≠ "")
    (hmem : marker ∈ records.map FragmentRecord.fragment_id) :
    mergeFragments env worktreesRoot records dryRun (some marker) =
      (records.dropWhile (fun r => r.fragment_id != marker)).mapM
        (mergeSingleResult env worktreesRoot dryRun) := by
  unfold mergeFragments
  rw [show ((match (some marker : Option String) with
      | some s => s != ""
      | none => false)) = true by simp [hne]]
  exact mergeLoop_resume env worktreesRoot dryRun marker records hmem

/-- A record with fragment id `"b"`. -/
def recB : FragmentRecord :=
  { fragment_id := "b", source := "/data/bb", destination := "/ws/demo/fragments/bb",
    source_type := "directory", timestamp := "t", has_git := false, recovered_repo := none }

/-- A record with fragment id `"c"`. -/
def recC : FragmentRecord :=
  { fragment_id := "c", source := "/data/cc", destination := "/ws/demo/fragments/cc",
    source_type := "directory", timestamp := "t", has_git := false, recovered_repo := none }

theorem merge_resume_spec_witness :
    mergeFragments envEmpty "/ws/demo/worktrees" [recA, recB, recC] false (some "b") =
      ([recA, recB, recC].dropWhile (fun r => r.fragment_id != "b")).mapM
        (mergeSingleResult envEmpty "/ws/demo/worktrees" false) :=
  merge_resume_spec envEmpty "/ws/demo/worktrees" false [recA, recB, recC] "b"
    (by decide) (by decide)

/-- Python `dict.setdefault(k, v)` on an environment mapping, observed
through lookups: the binding for `k` becomes its old value when present,
else `v`; other keys are unchanged. -/
def envSetdefault (env : String → Option String) (k v : String) : String → Option String :=
  fun q => if q = k then some ((env k).getD v) else env q

/-- The environment `recovery._initialize_git_repo` passes to
`git commit`: a copy of the ambient process environment with
`setdefault` fallbacks for the four git identity variables (the committer
defaulting to the resolved author). -/
def recoveryCommitEnv (ambient : String → Option String) : String → Option String :=
  let e1 := envSetdefault ambient "GIT_AUTHOR_NAME" "repo-merger"
  let e2 := envSetdefault e1 "GIT_AUTHOR_EMAIL" "repo-merger@example.com"
  let e3 := envSetdefault e2 "GIT_COMMITTER_NAME" ((e2 "GIT_AUTHOR_NAME").getD "")
  envSetdefault e3 "GIT_COMMITTER_EMAIL" ((e3 "GIT_AUTHOR_EMAIL").getD "")

/-- The authorship identity (author name/email, committer name/email) of
the single commit created during recovery of a fragment. -/
def commitAuthorship (ambient : String → Option String) :
    Option String × Option String × Option String × Option String :=
  (recoveryCommitEnv ambient "GIT_AUTHOR_NAME",
   recoveryCommitEnv ambient "GIT_AUTHOR_EMAIL",
   recoveryCommitEnv ambient "GIT_COMMITTER_NAME",
   recoveryCommitEnv ambient "GIT_COMMITTER_EMAIL")

/-- C7 counterexample: recovery's commit authorship is *not* independent
of ambient configuration — `setdefault` only fills the identity variables
when unset, so an ambient `GIT_AUTHOR_NAME=alice` changes the authorship
of the recovery commit relative to a run with a clean environment. -/
theorem recovery_authorship_cex :
    commitAuthorship (fun _ => none)
        = (some "repo-merger", some "repo-merger@example.com", some "repo-merger",
           some "repo-merger@example.com")
    ∧ commitAuthorship (fun k => if k = "GIT_AUTHOR_NAME" then some "alice" else none)
        = (some "alice", some "repo-merger@example.com", some "alice",
           some "repo-merger@example.com")
    ∧ (decide (commitAuthorship (fun _ => none)
        = commitAuthorship (fun k => if k = "GIT_AUTHOR_NAME" then some "alice" else none))
          = false) :=
  ⟨rfl, rfl, rfl⟩

/-- C7 (amended): the recovery commit uses the ambient
`GIT_AUTHOR_*` / `GIT_COMMITTER_*` values when the ambient configuration
defines them, and the fixed fallback identity
`repo-merger <repo-merger@example.com>` (committer defaulting to the
resolved author) only for the variables the ambient environment leaves
unset; in particular the authorship is the fixed identity whenever none of
the four variables is set, but it is not independent of ambient
configuration in general. -/
theorem recovery_authorship_spec (ambient : String → Option String) :
    recoveryCommitEnv ambient "GIT_AUTHOR_NAME"
        = some ((ambient "GIT_AUTHOR_NAME").getD "repo-merger")
    ∧ recoveryCommitEnv ambient "GIT_AUTHOR_EMAIL"
        = some ((ambient "GIT_AUTHOR_EMAIL").getD "repo-merger@example.com")
    ∧ recoveryCommitEnv ambient "GIT_COMMITTER_NAME"
        = some ((ambient "GIT_COMMITTER_NAME").getD
            ((ambient "GIT_AUTHOR_NAME").getD "repo-merger"))
    ∧ recoveryCommitEnv ambient "GIT_COMMITTER_EMAIL"
        = some ((ambient "GIT_COMMITTER_EMAIL").getD
            ((ambient "GIT_AUTHOR_EMAIL").getD "repo-merger@example.com"))
    ∧ commitAuthorship (fun _ => none)
        = (some "repo-merger", some "repo-merger@example.com", some "repo-merger",
           some "repo-merger@example.com") :=
  ⟨rfl, rfl, rfl, rfl, rfl⟩

end RepoMerger
